import Mathlib

/-!
Verification of the ESPRE feature-alignment and stacked-ensemble inference
engine, a shallow embedding of `src/espre.py`.

The embedded region is the Step 4 prediction block of `main`
(lines 166-206) together with `StackingWrapper.predict_proba`
(lines 43-49):

* `buildWide`    - lines 170-176: `df_feat.set_index('bin_id')[['ratio.corrected']].T`
  has row index `['ratio.corrected']` and one column per input row;
  the `GC` transpose likewise has row index `['GC']`.  After the
  column renames, `pd.concat([df_ratio, df_gc], axis=1)` outer-joins
  the two row indexes, so `X_input` is a TWO-row frame: each ratio
  column holds its value at row label 'ratio.corrected' and NaN at
  row label 'GC', and symmetrically for the GC columns.  A frame is
  modelled as an ordered column list `List (String × Series)` where a
  `Series` maps row labels to `Option ℚ` values, `none` standing for
  pandas NaN.
* `align` / `alignWith` - lines 179-182: `X_final = DataFrame(0,
  index=[0], columns=train_cols)`, `common_cols = list(set(X_input.columns)
  & set(train_cols))`, `X_final[common_cols] = X_input[common_cols]`.
  The Python `set` has no canonical order, so `alignWith` takes the
  enumeration order of the intersection as an explicit parameter and
  `align` instantiates it with a canonical enumeration (`commonCols`).
  pandas raises `ValueError: Columns must be same length as key`
  (`check_key_length`) when `X_input[common_cols]` is wider than
  `common_cols`, which happens exactly when a selected label is
  duplicated on `X_input`'s column axis; `alignWith` models that as
  the `alignWidth` error.  Otherwise the assignment is INDEX-ALIGNED
  per column: the right-hand column is reindexed to `X_final`'s row
  index `[0]` (`reindex1`), so a label absent from the right-hand
  index - in particular the integer 0 against `X_input`'s string
  index ['ratio.corrected', 'GC'] - yields NaN, and the assignment
  writes that reindexed series into every `X_final` column with the
  selected label (`setCol`).  Consequently the program writes NaN,
  not the built value, into every schema column shared with
  `X_input`; the model reproduces this.
* `predictProba` - lines 43-49: preprocessing, the per-base-model
  level-1 probabilities keyed by model name, and the meta-model call.
* `classifyLabel` / `classifyNote` - lines 189-204: the
  `prob >= cutoff` label decision and the `prob > 0.8` advisory
  flag note.
* `runInference` - the composition of the above, with the
  `df_feat.empty` guard of lines 166-167 first.

Feature values are modelled as exact rationals inside `Option ℚ`
(`none` = NaN): within the embedded region values are only copied,
dropped and compared (never combined arithmetically), so this is a
faithful stand-in for Python floats here.  The `sys.exit` calls of
the script are modelled as `Except` errors: the script terminates
without producing a result row (SystemExit also escapes the
`except Exception` handler of line 209), which is exactly an
`Except.error` outcome of the pipeline.
-/

namespace ESPRE

/-- A cell value: `some q` for a numeric entry, `none` for pandas
NaN (a missing value). -/
abbrev Val := Option ℚ

/-- A pandas axis label: the integer labels of a default RangeIndex
(such as `X_final`'s `[0]`) or string labels (such as `X_input`'s
['ratio.corrected', 'GC']).  Labels of different kinds never
compare equal, as in pandas. -/
inductive RowLabel where
  | ofInt : ℤ → RowLabel
  | ofStr : String → RowLabel
deriving DecidableEq, Inhabited

/-- One frame column: its value at each row label, in index order. -/
abbrev Series := List (RowLabel × Val)

/-- A pandas DataFrame: an ordered column axis of string labels
(duplicates possible, as in pandas), each carrying a Series over the
frame's row index. -/
abbrev Frame := List (String × Series)

/-- A single-row frame of plain probabilities: the level-1 frame
`level1_preds` of lines 46-48, whose entries are genuine
`predict_proba` outputs. -/
abbrev ProbVec := List (String × ℚ)

/-- The column labels of a frame, in axis order. -/
def names {α : Type} (v : List (String × α)) : List String := v.map Prod.fst

/-- One row of the feature table `features.csv` read at line 165:
columns `bin_id`, `ratio.corrected`, `GC`. -/
structure BinFeatureRow where
  bin_id : String
  ratio_corrected : ℚ
  gc : ℚ

/-- A ratio column of `X_input` after the line-176 concat: the value
sits at row label 'ratio.corrected' and the outer join fills row
label 'GC' with NaN. -/
def ratioSeries (v : ℚ) : Series :=
  [(RowLabel.ofStr "ratio.corrected", some v), (RowLabel.ofStr "GC", none)]

/-- A GC column of `X_input` after the line-176 concat: NaN at row
label 'ratio.corrected', the value at row label 'GC'. -/
def gcSeries (v : ℚ) : Series :=
  [(RowLabel.ofStr "ratio.corrected", none), (RowLabel.ofStr "GC", some v)]

/-- Lines 170-176: the renamed ratio-block columns (prefix
`"ratio.corrected_"`, in input-row order) followed by the renamed
GC-block columns (prefix `"GC_"`), outer-joined on the row axis by
`pd.concat(axis=1)`. -/
def buildWide (rows : List BinFeatureRow) : Frame :=
  (rows.map fun r => ("ratio.corrected_" ++ r.bin_id, ratioSeries r.ratio_corrected))
    ++ (rows.map fun r => ("GC_" ++ r.bin_id, gcSeries r.gc))

/-- Reindexing a series to the one-element index `[l]`: the value at
label `l` if the series' index carries it, else NaN.  This is what
pandas does to each right-hand column of the line-182 assignment,
with `l` being `X_final`'s single row label `0`. -/
def reindex1 (s : Series) (l : RowLabel) : Val :=
  match s.find? (fun p => p.1 == l) with
  | some p => p.2
  | none => none

/-- The first column of `src` labelled `c` (the relevant one for the
single-label reads the pipeline performs), empty when no column is
labelled `c`. -/
def colSeries (src : Frame) (c : String) : Series :=
  match src.find? (fun p => p.1 == c) with
  | some p => p.2
  | none => []

/-- The value line 182 actually writes for a selected label `c`:
`src`'s column `c` reindexed to `X_final`'s row label `0`.  Against
the real `X_input`, whose row index is ['ratio.corrected', 'GC'],
this is always NaN. -/
def assignedVal (src : Frame) (c : String) : Val :=
  reindex1 (colSeries src c) (RowLabel.ofInt 0)

/-- The value a schema column ends up holding after line 182: the
index-aligned assigned value when the label was selected (it is
selected exactly when `src` has it), else the untouched
`DataFrame(0, ...)` fill. -/
def alignedVal (src : Frame) (c : String) : Val :=
  if c ∈ names src then assignedVal src c else some 0

/-- pandas label assignment `df[c] = s` on the single-row `X_final`:
every column labelled `c` becomes the assigned series over
`X_final`'s row index `[0]`. -/
def setCol (v : Frame) (c : String) (x : Val) : Frame :=
  v.map fun p => if p.1 == c then (p.1, [(RowLabel.ofInt 0, x)]) else p

/-- `X_final[common_cols] = X_input[common_cols]` (line 182): for each
selected label, in enumeration order, write `src`'s index-aligned
value for that label into `base`. -/
def assignCols (base : Frame) (src : Frame) (cols : List String) : Frame :=
  cols.foldl (fun acc c => setCol acc c (assignedVal src c)) base

/-- A canonical enumeration of
`set(X_input.columns) & set(train_cols)` (line 181): the distinct
source labels that also occur in the schema. -/
def commonCols (src : Frame) (schema : List String) : List String :=
  ((names src).dedup).filter (fun c => decide (c ∈ schema))

/-- Whether some selected label is duplicated on `src`'s column axis;
in that case `X_input[cols]` is wider than `cols` and the line-182
assignment raises `ValueError: Columns must be same length as key`. -/
def hasDupAmong (src : Frame) (cols : List String) : Bool :=
  cols.any (fun c => decide (2 ≤ (names src).count c))

/-- Terminal failures of the embedded pipeline.  `emptyFeature` is the
`sys.exit` of line 167; `alignWidth` is the pandas width-mismatch
`ValueError` at line 182 (caught at line 209 and turned into a
terminal exit); `schemaMismatch` is the fitted meta-classifier's
feature-name check (spec section 4.3). -/
inductive InferError where
  | emptyFeature
  | alignWidth
  | schemaMismatch

/-- Lines 179-182 with the intersection enumerated in the order `e`:
the zero-filled schema-shaped frame over row index `[0]`, then the
index-aligned assignment of every selected column. -/
def alignWith (e : List String) (src : Frame) (schema : List String) :
    Except InferError Frame :=
  if hasDupAmong src e then .error .alignWidth
  else .ok (assignCols (schema.map fun c => (c, [(RowLabel.ofInt 0, some (0 : ℚ))])) src e)

/-- Lines 179-182 with the canonical enumeration of the intersection. -/
def align (src : Frame) (schema : List String) : Except InferError Frame :=
  alignWith (commonCols src schema) src schema

/-- Value of level-1 column `c`: the first column labelled `c`,
defaulting to `0` when no column is labelled `c` (never reached when
the name sets match). -/
def lookupD (v : ProbVec) (c : String) : ℚ :=
  match v.find? (fun p => p.1 == c) with
  | some p => p.2
  | none => 0

/-- Modelled from the spec: the fitted meta-classifier is an external
artifact (`scz_stacking_model.joblib`, not part of this repository's
source); per spec section 4.3 step 2 it accepts its input by column
name — a vector whose name set diverges from the expected input names
fails with `SchemaMismatchError`, and otherwise the columns are
consumed keyed by name, not by position. -/
structure MetaModel where
  expected : List String
  score : ProbVec → ℚ

/-- Two label lists carry the same name set. -/
def sameNames (a b : List String) : Bool :=
  a.all (fun c => decide (c ∈ b)) && b.all (fun c => decide (c ∈ a))

/-- Modelled from the spec: applying the external meta-classifier to
the level-1 frame (spec section 4.3 steps 2-3). -/
def metaApply (m : MetaModel) (preds : ProbVec) : Except InferError ℚ :=
  if sameNames (names preds) m.expected then
    .ok (m.score (m.expected.map fun n => (n, lookupD preds n)))
  else .error .schemaMismatch

/-- The unpickled `StackingWrapper` state used by `predict_proba`
(lines 43-49): a preprocessor, the fitted base models as a name-keyed
association (a Python dict iterated in a fixed order), and the meta
model.  A fitted base model is abstracted to its positive-class
probability `X_proc -> p`, i.e. `model.predict_proba(X_proc)[:, 1]`
of line 48. -/
structure Model where
  preprocessor : Frame → Frame
  base_models : List (String × (Frame → ℚ))
  meta : MetaModel

/-- Lines 45-48: `X_proc = self.preprocessor.transform(X)`, then one
level-1 column per base model, labelled by the model's name, holding
that model's positive-class probability on `X_proc`. -/
def level1Preds (M : Model) (X : Frame) : ProbVec :=
  M.base_models.map fun nb => (nb.1, nb.2 (M.preprocessor X))

/-- Lines 43-49: `StackingWrapper.predict_proba`, returning the
meta-model's positive-class probability. -/
def predictProba (M : Model) (X : Frame) : Except InferError ℚ :=
  metaApply M.meta (level1Preds M X)

/-- The per-sample outcome persisted at lines 200-206: probability,
label string, and the advisory note string. -/
structure PredictionResult where
  probability : ℚ
  label : String
  note : String

/-- Line 190: `pred_label = "SCZ" if prob >= cutoff else "Normal"`
("SCZ" is the positive label). -/
def classifyLabel (p cutoff : ℚ) : String :=
  if p ≥ cutoff then "SCZ" else "Normal"

/-- Line 204: the advisory flag is strict: `prob > flag_threshold`. -/
def classifyNote (p flag_cut : ℚ) : String :=
  if p > flag_cut then "Flagged High Risk" else ""

/-- Line 204 hardcodes the advisory flag threshold `0.8`. -/
def flagThreshold : ℚ := 4 / 5

/-- The Step 4 prediction block (lines 166-206), with the intersection
of line 181 enumerated in the order `e`: the emptiness guard, the
reshape, the alignment, the ensemble call, and the thresholding. -/
def runInferenceWith (e : List String) (rows : List BinFeatureRow)
    (schema : List String) (M : Model) (cutoff : ℚ) :
    Except InferError PredictionResult :=
  if rows.isEmpty then .error .emptyFeature
  else
    match alignWith e (buildWide rows) schema with
    | .error err => .error err
    | .ok V =>
      match predictProba M V with
      | .error err => .error err
      | .ok p => .ok ⟨p, classifyLabel p cutoff, classifyNote p flagThreshold⟩

/-- The Step 4 prediction block with the canonical intersection
enumeration: the single entry point `run_inference` of spec section 6. -/
def runInference (rows : List BinFeatureRow) (schema : List String)
    (M : Model) (cutoff : ℚ) : Except InferError PredictionResult :=
  runInferenceWith (commonCols (buildWide rows) schema) rows schema M cutoff

/-- `e` enumerates `set(X_input.columns) & set(train_cols)` of line 181:
exactly the labels common to the source frame and the schema, in some
order.  Python enumerates this set in an unspecified (hash-dependent)
order. -/
def IsCommonEnum (e : List String) (src : Frame) (schema : List String) : Prop :=
  ∀ c, c ∈ e ↔ (c ∈ names src ∧ c ∈ schema)

/-- A base model placeholder returning probability 0 on any frame. -/
def constZeroF : Frame → ℚ := fun _ => 0

/-- A meta-model placeholder returning probability 0. -/
def constZeroP : ProbVec → ℚ := fun _ => 0

/-- A minimal concrete ensemble: identity preprocessor, one base model
named "A", meta model expecting exactly "A". -/
def zeroModel : Model := ⟨id, [("A", constZeroF)], ⟨["A"], constZeroP⟩⟩

/-- The spec's end-to-end scenario 4 ensemble: base models named "A"
and "B", meta model expecting names "A" and "C". -/
def mismatchModel : Model :=
  ⟨id, [("A", constZeroF), ("B", constZeroF)], ⟨["A", "C"], constZeroP⟩⟩

/-- `mismatchModel`'s base models listed in the opposite order. -/
def mismatchSwapped : List (String × (Frame → ℚ)) :=
  [("B", constZeroF), ("A", constZeroF)]

/-- A model whose preprocessor discards its input. -/
def constPreModel : Model := ⟨fun _ => [], [("A", constZeroF)], ⟨["A"], constZeroP⟩⟩

/-- Same ensemble as `constPreModel` up to the base model's code: its
base model produces the same probability on the preprocessed input. -/
def lookupModel : Model :=
  ⟨fun _ => [], [("A", fun v => (assignedVal v "none").getD 0)], ⟨["A"], constZeroP⟩⟩

/-- One observed bin, used to exercise the deterministic pipeline. -/
def rowsW : List BinFeatureRow := [⟨"b", 1, 2⟩]

/-- A schema naming both columns generated by `rowsW`. -/
def schemaW : List String := ["ratio.corrected_b", "GC_b"]

/-! Helper lemmas about the alignment machinery. -/

lemma mem_commonCols {src : Frame} {schema : List String} {c : String} :
    c ∈ commonCols src schema ↔ c ∈ names src ∧ c ∈ schema := by
  simp [commonCols, List.mem_filter, List.mem_dedup]

lemma lookupD_eq_zero {src : ProbVec} {c : String} (h : c ∉ names src) :
    lookupD src c = 0 := by
  unfold lookupD
  have hf : src.find? (fun p => p.1 == c) = none := by
    rw [List.find?_eq_none]
    intro p hp
    simp only [beq_iff_eq]
    exact fun he => h (he ▸ List.mem_map_of_mem Prod.fst hp)
  rw [hf]

lemma lookupD_eq_of_mem {l : ProbVec} {c : String} {v : ℚ}
    (hmem : (c, v) ∈ l) (hnd : (names l).Nodup) : lookupD l c = v := by
  induction l with
  | nil => cases hmem
  | cons p t ih =>
    unfold lookupD
    by_cases h1 : p.1 = c
    · rw [List.find?_cons_of_pos _ (by simpa using h1)]
      rcases List.mem_cons.mp hmem with he | ht
      · rw [← he]
      · exfalso
        have : c ∈ names t := List.mem_map_of_mem Prod.fst ht
        rw [← h1] at this
        exact (List.nodup_cons.mp hnd).1 this
    · rw [List.find?_cons_of_neg _ (by simpa using h1)]
      have ht : (c, v) ∈ t := by
        rcases List.mem_cons.mp hmem with he | ht
        · exact absurd (congrArg Prod.fst he.symm) h1
        · exact ht
      have := ih ht (List.nodup_cons.mp hnd).2
      unfold lookupD at this
      exact this

lemma assignedVal_graph {S : List String} {c : String} (g : String → Val)
    (hc : c ∈ S) :
    assignedVal (S.map fun a => (a, [(RowLabel.ofInt 0, g a)])) c = g c := by
  induction S with
  | nil => cases hc
  | cons a t ih =>
    unfold assignedVal colSeries
    by_cases h1 : a = c
    · rw [List.map_cons, List.find?_cons_of_pos _ (by simpa using h1)]
      subst h1
      rfl
    · rw [List.map_cons, List.find?_cons_of_neg _ (by simpa using h1)]
      have hct : c ∈ t := by
        rcases List.mem_cons.mp hc with he | ht
        · exact absurd he.symm h1
        · exact ht
      have := ih hct
      unfold assignedVal colSeries at this
      exact this

lemma assignCols_eq_map (cols : List String) (base src : Frame) :
    assignCols base src cols =
      base.map fun p =>
        if p.1 ∈ cols then (p.1, [(RowLabel.ofInt 0, assignedVal src p.1)]) else p := by
  induction cols generalizing base with
  | nil => simp [assignCols]
  | cons c cs ih =>
    have step : assignCols base src (c :: cs) =
        assignCols (setCol base c (assignedVal src c)) src cs := rfl
    rw [step, ih]
    unfold setCol
    rw [List.map_map]
    refine List.map_congr_left fun p _ => ?_
    by_cases h1 : p.1 = c
    · by_cases h2 : p.1 ∈ cs <;>
        simp [Function.comp, h1, h2, List.mem_cons]
    · by_cases h2 : p.1 ∈ cs <;>
        simp [Function.comp, h1, h2, List.mem_cons]

lemma nodup_hasDup_false {src : Frame} (h : (names src).Nodup)
    (e : List String) : hasDupAmong src e = false := by
  rw [hasDupAmong, List.any_eq_false]
  intro c _
  have := List.nodup_iff_count_le_one.mp h c
  simp only [decide_eq_true_eq]
  omega

lemma align_eq_ok {src : Frame} {schema : List String}
    (h : hasDupAmong src (commonCols src schema) = false) :
    align src schema =
      .ok (schema.map fun c => (c, [(RowLabel.ofInt 0, alignedVal src c)])) := by
  unfold align alignWith
  rw [h]
  simp only [Bool.false_eq_true, if_false]
  congr 1
  rw [assignCols_eq_map, List.map_map]
  refine List.map_congr_left fun c hc => ?_
  by_cases hm : c ∈ names src
  · have hcc : c ∈ commonCols src schema := mem_commonCols.mpr ⟨hm, hc⟩
    simp [Function.comp, hcc, alignedVal, hm]
  · have h1 : c ∉ commonCols src schema := fun hcc => hm (mem_commonCols.mp hcc).1
    simp [Function.comp, h1, alignedVal, hm]

lemma align_ok_form {src V : Frame} {schema : List String}
    (h : align src schema = .ok V) :
    V = schema.map fun c => (c, [(RowLabel.ofInt 0, alignedVal src c)]) := by
  by_cases hD : hasDupAmong src (commonCols src schema) = false
  · rw [align_eq_ok hD] at h
    exact (Except.ok.inj h).symm
  · exfalso
    rw [Bool.not_eq_false] at hD
    unfold align alignWith at h
    rw [hD] at h
    simp at h

lemma alignWith_congr {e1 e2 : List String} (h : ∀ c, c ∈ e1 ↔ c ∈ e2)
    (src : Frame) (schema : List String) :
    alignWith e1 src schema = alignWith e2 src schema := by
  unfold alignWith
  have hd : hasDupAmong src e1 = hasDupAmong src e2 := by
    rw [Bool.eq_iff_iff]
    unfold hasDupAmong
    rw [List.any_eq_true, List.any_eq_true]
    constructor
    · rintro ⟨c, hc, hp⟩; exact ⟨c, (h c).mp hc, hp⟩
    · rintro ⟨c, hc, hp⟩; exact ⟨c, (h c).mpr hc, hp⟩
  rw [hd]
  have ha : assignCols (schema.map fun c => (c, [(RowLabel.ofInt 0, some (0 : ℚ))])) src e1 =
      assignCols (schema.map fun c => (c, [(RowLabel.ofInt 0, some (0 : ℚ))])) src e2 := by
    rw [assignCols_eq_map, assignCols_eq_map]
    refine List.map_congr_left fun p _ => ?_
    by_cases hp : p.1 ∈ e1
    · simp [hp, (h _).mp hp]
    · have hp2 : p.1 ∉ e2 := fun hq => hp ((h _).mpr hq)
      simp [hp, hp2]
  rw [ha]

lemma runInferenceWith_congr {e1 e2 : List String}
    {rows : List BinFeatureRow} {schema : List String}
    (h : alignWith e1 (buildWide rows) schema = alignWith e2 (buildWide rows) schema)
    (M : Model) (cutoff : ℚ) :
    runInferenceWith e1 rows schema M cutoff = runInferenceWith e2 rows schema M cutoff := by
  unfold runInferenceWith
  rw [h]

lemma names_level1 (M : Model) (X : Frame) :
    names (level1Preds M X) = M.base_models.map Prod.fst := by
  simp [names, level1Preds]

lemma sameNames_iff {a b : List String} :
    sameNames a b = true ↔ ∀ c, c ∈ a ↔ c ∈ b := by
  simp only [sameNames, Bool.and_eq_true, List.all_eq_true, decide_eq_true_eq]
  constructor
  · rintro ⟨H1, H2⟩ c
    exact ⟨H1 c, H2 c⟩
  · intro H
    exact ⟨fun c hc => (H c).mp hc, fun c hc => (H c).mpr hc⟩

lemma sameNames_congr {a1 a2 : List String} (h : ∀ c, c ∈ a1 ↔ c ∈ a2)
    (b : List String) : sameNames a1 b = sameNames a2 b := by
  rw [Bool.eq_iff_iff]
  simp only [sameNames, Bool.and_eq_true, List.all_eq_true, decide_eq_true_eq]
  constructor
  · rintro ⟨H1, H2⟩
    exact ⟨fun c hc => H1 c ((h c).mpr hc), fun c hc => (h c).mp (H2 c hc)⟩
  · rintro ⟨H1, H2⟩
    exact ⟨fun c hc => H1 c ((h c).mp hc), fun c hc => (h c).mpr (H2 c hc)⟩

lemma lookupD_perm {l1 l2 : ProbVec} (hnd : (names l1).Nodup)
    (hp : l1.Perm l2) (c : String) : lookupD l1 c = lookupD l2 c := by
  have hnd2 : (names l2).Nodup := ((hp.map Prod.fst).nodup_iff).mp hnd
  by_cases hm : c ∈ names l1
  · obtain ⟨p, hpl, hpc⟩ := List.mem_map.mp hm
    obtain ⟨a, v⟩ := p
    rcases hpc
    rw [lookupD_eq_of_mem hpl hnd, lookupD_eq_of_mem (hp.mem_iff.mp hpl) hnd2]
  · have hm2 : c ∉ names l2 := fun h2 => hm (((hp.map Prod.fst).mem_iff).mpr h2)
    rw [lookupD_eq_zero hm, lookupD_eq_zero hm2]

lemma metaApply_perm {preds1 preds2 : ProbVec} (m : MetaModel)
    (hnd : (names preds1).Nodup) (hp : preds1.Perm preds2) :
    metaApply m preds1 = metaApply m preds2 := by
  unfold metaApply
  have hmem : ∀ c, c ∈ names preds1 ↔ c ∈ names preds2 :=
    fun c => (hp.map Prod.fst).mem_iff
  rw [sameNames_congr hmem]
  by_cases hS : sameNames (names preds2) m.expected = true
  · rw [if_pos hS, if_pos hS]
    have harg : (m.expected.map fun n => (n, lookupD preds1 n)) =
        m.expected.map fun n => (n, lookupD preds2 n) :=
      List.map_congr_left fun n _ => by rw [lookupD_perm hnd hp]
    rw [harg]
  · rw [if_neg hS, if_neg hS]

/-!  Claim theorems. -/

/-- C1: the alignment of lines 179-182 does NOT copy the wide
vector's values.  At the failing input - the single observed bin
"chr1_0" with ratio value 1.2, schema ["ratio.corrected_chr1_0",
"zzz"] - the schema column present in the wide frame is written NaN
(`none`): the line-182 assignment index-aligns `X_input`'s rows
['ratio.corrected', 'GC'] to `X_final`'s row `[0]`, which match
nowhere, so the value 1.2 never arrives.  Only the absent column
gets the claimed default 0.  This evaluation of the embedded code
exhibits the divergence from the claim (present columns carry W's
value). -/
theorem align_writes_nan_on_common :
    align (buildWide [⟨"chr1_0", 1.2, 0.45⟩]) ["ratio.corrected_chr1_0", "zzz"] =
      .ok [("ratio.corrected_chr1_0", [(RowLabel.ofInt 0, none)]),
           ("zzz", [(RowLabel.ofInt 0, some 0)])] := rfl

/-- C2: the aligned output does have exactly the schema's columns in
the schema's order, but it is NOT fully defined: at the failing
input, the schema column shared with the built wide frame holds NaN
(`none`), pandas' missing value, because of the index-aligned
line-182 assignment.  This evaluation of the embedded code exhibits
the divergence from the claim (every column carrying a defined
value). -/
theorem align_shape_but_nan :
    align (buildWide [⟨"chr1_0", 1.2, 0.45⟩]) ["GC_chr1_0", "absent"] =
      .ok [("GC_chr1_0", [(RowLabel.ofInt 0, none)]),
           ("absent", [(RowLabel.ofInt 0, some 0)])] := rfl

/-- C3 counterexample: on the claim's own scenario the code does not
produce [1.2, 0.45, 0.0].  The code names the built columns
`ratio.corrected_<bin_id>` (line 171, with a dot) and `GC_<bin_id>`
(line 174, capitalised), so the schema column
"ratio_corrected_chr1_0" matches nothing and keeps the default 0;
and the one schema column that does match, "GC_chr1_0", is written
NaN by the index-aligned line-182 assignment, not 0.45.  The code
yields [0, NaN, 0]. -/
theorem build_claimed_naming_counterexample :
    align (buildWide [⟨"chr1_0", 1.2, 0.45⟩])
        ["ratio_corrected_chr1_0", "GC_chr1_0", "ratio_corrected_chr2_0"] ≠
      .ok [("ratio_corrected_chr1_0", [(RowLabel.ofInt 0, some 1.2)]),
           ("GC_chr1_0", [(RowLabel.ofInt 0, some 0.45)]),
           ("ratio_corrected_chr2_0", [(RowLabel.ofInt 0, some 0)])] := by
  rw [show align (buildWide [⟨"chr1_0", 1.2, 0.45⟩])
      ["ratio_corrected_chr1_0", "GC_chr1_0", "ratio_corrected_chr2_0"] =
      .ok [("ratio_corrected_chr1_0", [(RowLabel.ofInt 0, some 0)]),
           ("GC_chr1_0", [(RowLabel.ofInt 0, none)]),
           ("ratio_corrected_chr2_0", [(RowLabel.ofInt 0, some 0)])] from rfl]
  intro h
  have h2 := Except.ok.inj h
  have h3 : (some (0 : ℚ) : Val) = some 1.2 :=
    congrArg (fun l : Frame => l.headI.2.headI.2) h2
  have h4 := Option.some.inj h3
  norm_num at h4

/-- C3 amended: every sequence of BinFeatureRows yields exactly
`2 * count rows` columns, each row contributing the two columns
`ratio.corrected_<bin_id>` and `GC_<bin_id>` (the code's spelling)
with its numeric values passed through unchanged into the wide
frame; but the aligned scenario vector is [NaN, NaN, 0.0], not
[1.2, 0.45, 0.0]: even against the code-spelled schema
["ratio.corrected_chr1_0", "GC_chr1_0", "ratio.corrected_chr2_0"]
the two matched columns are written NaN by the index-aligned
line-182 assignment and only the unmatched column keeps the
default 0. -/
theorem build_naming_and_scenario (rows : List BinFeatureRow) :
    (buildWide rows).length = 2 * rows.length ∧
    (∀ r ∈ rows,
      ("ratio.corrected_" ++ r.bin_id, ratioSeries r.ratio_corrected) ∈ buildWide rows ∧
      ("GC_" ++ r.bin_id, gcSeries r.gc) ∈ buildWide rows) ∧
    align (buildWide [⟨"chr1_0", 1.2, 0.45⟩])
        ["ratio.corrected_chr1_0", "GC_chr1_0", "ratio.corrected_chr2_0"] =
      .ok [("ratio.corrected_chr1_0", [(RowLabel.ofInt 0, none)]),
           ("GC_chr1_0", [(RowLabel.ofInt 0, none)]),
           ("ratio.corrected_chr2_0", [(RowLabel.ofInt 0, some 0)])] := by
  refine ⟨?_, ?_, rfl⟩
  · simp [buildWide]
    omega
  · intro r hr
    constructor
    · exact List.mem_append_left _ (List.mem_map.mpr ⟨r, hr, rfl⟩)
    · exact List.mem_append_right _ (List.mem_map.mpr ⟨r, hr, rfl⟩)

/-- Witness for C3 amended: the single scenario row does contribute
its dot-spelled ratio column, carrying the value 1.2 unchanged in
the wide frame. -/
theorem build_naming_and_scenario_witness :
    ("ratio.corrected_chr1_0", ratioSeries 1.2) ∈ buildWide [⟨"chr1_0", 1.2, 0.45⟩] :=
  ((build_naming_and_scenario [⟨"chr1_0", 1.2, 0.45⟩]).2.1
    ⟨"chr1_0", 1.2, 0.45⟩ (by simp)).1

/-- C4: on the empty row sequence the pipeline stops at the
`df_feat.empty` guard (lines 166-167) with the empty-feature error,
for every schema, model and threshold: no PredictionResult is
produced, and there is no retry path (`runInference` is a single
total function from inputs to a single outcome). -/
theorem runInference_empty_rows (S : List String) (M : Model) (cutoff : ℚ) :
    runInference [] S M cutoff = .error .emptyFeature := rfl

/-- C5 counterexample: on two rows sharing bin_id "chr1_0" the code
does not fail while building (there is no duplicate check anywhere in
lines 170-176): the wide frame is produced with both duplicate
columns kept, and - when the duplicated labels are not in the schema,
so the intersection is empty - the whole pipeline even returns a
PredictionResult, so no DuplicateBinError exists and a feature vector
is produced. -/
theorem duplicate_bins_counterexample :
    buildWide [⟨"chr1_0", 1, 1⟩, ⟨"chr1_0", 2, 2⟩] =
      [("ratio.corrected_chr1_0", ratioSeries 1), ("ratio.corrected_chr1_0", ratioSeries 2),
       ("GC_chr1_0", gcSeries 1), ("GC_chr1_0", gcSeries 2)] ∧
    runInference [⟨"chr1_0", 1, 1⟩, ⟨"chr1_0", 2, 2⟩] ["other"] zeroModel 0 =
      .ok ⟨0, "SCZ", ""⟩ := by
  refine ⟨rfl, ?_⟩
  rw [show runInference [⟨"chr1_0", 1, 1⟩, ⟨"chr1_0", 2, 2⟩] ["other"] zeroModel 0 =
      .ok ⟨0, classifyLabel 0 0, classifyNote 0 flagThreshold⟩ from rfl]
  rw [show classifyLabel 0 0 = "SCZ" from rfl]
  rw [show classifyNote 0 flagThreshold = "" by
    rw [classifyNote, if_neg]
    rw [flagThreshold]
    norm_num]

/-- C5 amended: `build` never fails - duplicate bin_ids yield both
rows' columns (still `2 * count rows` of them).  The failure, when it
happens, is later and different: aligning fails with the pandas
width-mismatch error exactly when some schema column is duplicated on
the built frame, and succeeds (silently dropping the duplicates)
when no schema column is duplicated. -/
theorem duplicate_bins_behavior :
    (∀ rows : List BinFeatureRow, (buildWide rows).length = 2 * rows.length) ∧
    (∀ (src : Frame) (schema : List String),
      (∃ c ∈ schema, 2 ≤ (names src).count c) →
      align src schema = .error .alignWidth) ∧
    (∀ (src : Frame) (schema : List String),
      (∀ c ∈ schema, (names src).count c ≤ 1) →
      ∃ V, align src schema = .ok V) := by
  refine ⟨?_, ?_, ?_⟩
  · intro rows
    simp [buildWide]
    omega
  · rintro src schema ⟨c, hcs, hcount⟩
    have hmem : c ∈ names src := by
      have hpos : 0 < (names src).count c := by omega
      exact List.count_pos_iff.mp hpos
    have hcc : c ∈ commonCols src schema := mem_commonCols.mpr ⟨hmem, hcs⟩
    have hD : hasDupAmong src (commonCols src schema) = true := by
      rw [hasDupAmong, List.any_eq_true]
      exact ⟨c, hcc, by simpa using hcount⟩
    unfold align alignWith
    rw [hD]
    rfl
  · intro src schema h
    have hD : hasDupAmong src (commonCols src schema) = false := by
      rw [hasDupAmong, List.any_eq_false]
      intro c hcc
      have := h c (mem_commonCols.mp hcc).2
      simp only [decide_eq_true_eq]
      omega
    exact ⟨_, align_eq_ok hD⟩

/-- Witness for C5 amended: a duplicated source column "a" makes
alignment fail against schema ["a"] and succeed against schema
["z"]. -/
theorem duplicate_bins_behavior_witness :
    (buildWide [⟨"b", (1 : ℚ), 2⟩]).length = 2 * 1 ∧
    align [("a", [(RowLabel.ofInt 0, (some 1 : Val))]),
           ("a", [(RowLabel.ofInt 0, (some 2 : Val))])] ["a"] = .error .alignWidth ∧
    ∃ V, align [("a", [(RowLabel.ofInt 0, (some 1 : Val))]),
                ("a", [(RowLabel.ofInt 0, (some 2 : Val))])] ["z"] = .ok V := by
  refine ⟨duplicate_bins_behavior.1 _,
    duplicate_bins_behavior.2.1 _ _ ⟨"a", by simp, by decide⟩,
    duplicate_bins_behavior.2.2 _ _ ?_⟩
  intro c hc
  simp only [List.mem_singleton] at hc
  subst hc
  decide

/-- C6: for every probability in [0,1] and thresholds `t` and `f`, the
label is the positive label "SCZ" exactly when `p >= t` (closed lower
bound, line 190) and the advisory flag note is set exactly when
`p > f` (strict bound, line 204); the two decisions are computed by
separate functions of disjoint threshold arguments, so flagging is
independent of the label. -/
theorem classify_boundary (p t f : ℚ) (h0 : 0 ≤ p) (h1 : p ≤ 1) :
    (classifyLabel p t = "SCZ" ↔ t ≤ p) ∧
    (classifyLabel p t = "Normal" ↔ p < t) ∧
    (classifyNote p f = "Flagged High Risk" ↔ f < p) ∧
    (classifyNote p f = "" ↔ p ≤ f) := by
  have hs : ("Normal" : String) ≠ "SCZ" := by decide
  have hf : ("" : String) ≠ "Flagged High Risk" := by decide
  unfold classifyLabel classifyNote
  refine ⟨?_, ?_, ?_, ?_⟩
  · by_cases h : t ≤ p
    · simp [ge_iff_le, h]
    · simp [ge_iff_le, h, hs]
  · by_cases h : t ≤ p
    · simp [ge_iff_le, h, hs.symm, not_lt.mpr h]
    · simp [ge_iff_le, h, lt_of_not_le h]
  · by_cases h : f < p
    · simp [gt_iff_lt, h]
    · simp [gt_iff_lt, h, hf]
  · by_cases h : f < p
    · simp [gt_iff_lt, h, hf.symm, not_le.mpr h]
    · simp [gt_iff_lt, h, not_lt.mp h]

/-- Witness for C6 at the boundary: probability exactly equal to the
cutoff is labelled positive, probability exactly equal to the flag
threshold is not flagged. -/
theorem classify_boundary_witness :
    classifyLabel 1 1 = "SCZ" ∧ classifyNote 1 1 = "" :=
  ⟨(classify_boundary 1 1 1 (by norm_num) le_rfl).1.mpr le_rfl,
   (classify_boundary 1 1 1 (by norm_num) le_rfl).2.2.2.mpr le_rfl⟩

/-- C7: the level-1 frame is keyed by base-model name, not by
position - permuting the base-model mapping (names distinct, as in a
Python dict) leaves `predict_proba` unchanged - and whenever the set
of base-model names diverges from the meta-model's expected input
names the call fails with the schema-mismatch error, returning no
probability. -/
theorem predict_name_keyed (M : Model)
    (bms : List (String × (Frame → ℚ))) (X : Frame)
    (hperm : M.base_models.Perm bms)
    (hnd : (M.base_models.map Prod.fst).Nodup) :
    predictProba ⟨M.preprocessor, bms, M.meta⟩ X = predictProba M X ∧
    ((¬ ∀ c, c ∈ M.base_models.map Prod.fst ↔ c ∈ M.meta.expected) →
      predictProba M X = .error .schemaMismatch) := by
  constructor
  · have hp : (level1Preds M X).Perm
        (level1Preds ⟨M.preprocessor, bms, M.meta⟩ X) := by
      unfold level1Preds
      exact hperm.map fun nb => (nb.1, nb.2 (M.preprocessor X))
    have hnd1 : (names (level1Preds M X)).Nodup := by
      rw [names_level1]
      exact hnd
    exact (metaApply_perm M.meta hnd1 hp).symm
  · intro hdiv
    unfold predictProba metaApply
    rw [if_neg]
    intro hS
    exact hdiv fun c => by
      have := sameNames_iff.mp hS c
      rw [names_level1] at this
      exact this

/-- Witness for C7: the spec's scenario 4 - base models named "A" and
"B", meta model expecting "A" and "C" - is order-insensitive and
fails with the schema-mismatch error. -/
theorem predict_name_keyed_witness :
    predictProba ⟨mismatchModel.preprocessor, mismatchSwapped, mismatchModel.meta⟩ [] =
      predictProba mismatchModel [] ∧
    predictProba mismatchModel [] = .error .schemaMismatch := by
  have h := predict_name_keyed mismatchModel mismatchSwapped []
    (List.Perm.swap ("B", constZeroF) ("A", constZeroF) [])
    (by decide)
  refine ⟨h.1, h.2 ?_⟩
  intro hall
  have hB := (hall "B").mp (by decide)
  exact absurd hB (by decide)

/-- C8: `run_inference` is deterministic despite the unordered set
intersection of line 181: any two enumeration orders of
`set(X_input.columns) & set(train_cols)` produce identical results
for the same `(rows, schema, model, threshold)`, and each agrees with
the canonical-order run.  (The per-column line-182 writes, NaN
included, are keyed by column name, and all other stages are pure
functions of their inputs, so this is the only ordering freedom in
the pipeline.) -/
theorem runInference_deterministic (e1 e2 : List String)
    (rows : List BinFeatureRow) (schema : List String) (M : Model) (cutoff : ℚ)
    (h1 : IsCommonEnum e1 (buildWide rows) schema)
    (h2 : IsCommonEnum e2 (buildWide rows) schema) :
    runInferenceWith e1 rows schema M cutoff = runInferenceWith e2 rows schema M cutoff ∧
    runInferenceWith e1 rows schema M cutoff = runInference rows schema M cutoff := by
  have key : ∀ e, IsCommonEnum e (buildWide rows) schema →
      alignWith e (buildWide rows) schema =
        alignWith (commonCols (buildWide rows) schema) (buildWide rows) schema := by
    intro e he
    exact alignWith_congr (fun c => (he c).trans mem_commonCols.symm) _ _
  exact ⟨runInferenceWith_congr ((key e1 h1).trans (key e2 h2).symm) M cutoff,
    runInferenceWith_congr (key e1 h1) M cutoff⟩

/-- Witness for C8: the two enumeration orders of the two common
columns of `rowsW`/`schemaW` give the same prediction. -/
theorem runInference_deterministic_witness :
    runInferenceWith ["ratio.corrected_b", "GC_b"] rowsW schemaW zeroModel 0 =
      runInferenceWith ["GC_b", "ratio.corrected_b"] rowsW schemaW zeroModel 0 :=
  (runInference_deterministic ["ratio.corrected_b", "GC_b"]
    ["GC_b", "ratio.corrected_b"] rowsW schemaW zeroModel 0
    (by
      intro c
      rw [show names (buildWide rowsW) = ["ratio.corrected_b", "GC_b"] from rfl]
      simp only [schemaW, List.mem_cons, List.not_mem_nil, or_false]
      tauto)
    (by
      intro c
      rw [show names (buildWide rowsW) = ["ratio.corrected_b", "GC_b"] from rfl]
      simp only [schemaW, List.mem_cons, List.not_mem_nil, or_false]
      tauto)).1

/-- C9 counterexample: when the schema itself repeats a column name,
aligning the (duplicate-columned) aligned output against the same
schema does not reproduce it - the line-182 assignment fails with the
pandas width-mismatch error, because the selected label "a" is now
duplicated on the input's column axis.  So align is not idempotent
for every schema. -/
theorem align_idempotent_counterexample :
    align ([] : Frame) ["a", "a"] =
      .ok [("a", [(RowLabel.ofInt 0, some 0)]), ("a", [(RowLabel.ofInt 0, some 0)])] ∧
    align [("a", [(RowLabel.ofInt 0, (some 0 : Val))]),
           ("a", [(RowLabel.ofInt 0, (some 0 : Val))])] ["a", "a"] ≠
      .ok [("a", [(RowLabel.ofInt 0, some 0)]), ("a", [(RowLabel.ofInt 0, some 0)])] := by
  refine ⟨rfl, ?_⟩
  rw [show align [("a", [(RowLabel.ofInt 0, (some 0 : Val))]),
      ("a", [(RowLabel.ofInt 0, (some 0 : Val))])] ["a", "a"] =
      .error .alignWidth from rfl]
  intro h
  exact Except.noConfusion h

/-- C9 amended: for every schema `S` with pairwise-distinct column
names (the realistic case for a trained feature space) alignment is
idempotent: if `V` is the aligned output of some wide frame `W`
against `S`, then aligning `V` against `S` returns `V` itself -
identical columns, order and values.  Here the copy is real: `V`'s
row index is `[0]`, which does match `X_final`'s, so the
index-aligned assignment reproduces each value (NaN included). -/
theorem align_idempotent_nodup (W V : Frame) (S : List String)
    (hS : S.Nodup) (hV : align W S = .ok V) : align V S = .ok V := by
  have hform : V = S.map fun c => (c, [(RowLabel.ofInt 0, alignedVal W c)]) :=
    align_ok_form hV
  have hnames : names V = S := by
    rw [hform]
    show List.map Prod.fst (S.map fun c => (c, [(RowLabel.ofInt 0, alignedVal W c)])) = S
    rw [List.map_map]
    exact List.map_id S
  have hnd : (names V).Nodup := hnames ▸ hS
  rw [align_eq_ok (nodup_hasDup_false hnd _), hform]
  congr 1
  refine List.map_congr_left fun c hc => ?_
  have hne : names (S.map fun a => (a, [(RowLabel.ofInt 0, alignedVal W a)])) = S := by
    show List.map Prod.fst (S.map fun a => (a, [(RowLabel.ofInt 0, alignedVal W a)])) = S
    rw [List.map_map]
    exact List.map_id S
  have hmem : c ∈ names (S.map fun a => (a, [(RowLabel.ofInt 0, alignedVal W a)])) := by
    rw [hne]
    exact hc
  have key : alignedVal (S.map fun a => (a, [(RowLabel.ofInt 0, alignedVal W a)])) c =
      alignedVal W c := by
    have h1 : alignedVal (S.map fun a => (a, [(RowLabel.ofInt 0, alignedVal W a)])) c =
        assignedVal (S.map fun a => (a, [(RowLabel.ofInt 0, alignedVal W a)])) c :=
      if_pos hmem
    rw [h1, assignedVal_graph _ hc]
  exact congrArg (fun x => (c, [(RowLabel.ofInt 0, x)])) key

/-- Witness for C9 amended: re-aligning the aligned output of a
one-column wide frame against ["a", "b"] returns it unchanged. -/
theorem align_idempotent_nodup_witness :
    align [("a", [(RowLabel.ofInt 0, (some 1 : Val))]),
           ("b", [(RowLabel.ofInt 0, (some 0 : Val))])] ["a", "b"] =
      .ok [("a", [(RowLabel.ofInt 0, some 1)]), ("b", [(RowLabel.ofInt 0, some 0)])] :=
  align_idempotent_nodup [("a", [(RowLabel.ofInt 0, (some 1 : Val))])] _ ["a", "b"]
    (by decide) rfl

/-- C10: `predict_proba` (lines 43-49) feeds every base model the
preprocessed features, never the raw aligned frame - the result
depends on the input only through `preprocessor.transform` - and the
meta-model's input is determined by the name-keyed level-1
positive-class probabilities alone: two ensembles with the same meta
model and the same level-1 frame predict identically. -/
theorem ensemble_transform_dataflow (M1 M2 : Model) (X X' : Frame) :
    (M1.preprocessor X = M1.preprocessor X' →
      predictProba M1 X = predictProba M1 X') ∧
    (M1.meta = M2.meta → level1Preds M1 X = level1Preds M2 X →
      predictProba M1 X = predictProba M2 X) := by
  constructor
  · intro h
    unfold predictProba level1Preds
    rw [h]
  · intro hm hl
    unfold predictProba
    rw [hm, hl]

/-- Witness for C10: with a constant preprocessor the prediction
ignores the raw frame; and a base model computing the same level-1
probability a different way yields the same prediction. -/
theorem ensemble_transform_dataflow_witness :
    predictProba constPreModel [("x", [])] = predictProba constPreModel [("y", [])] ∧
    predictProba lookupModel [("x", [])] = predictProba constPreModel [("x", [])] :=
  ⟨(ensemble_transform_dataflow constPreModel constPreModel [("x", [])] [("y", [])]).1 rfl,
   (ensemble_transform_dataflow lookupModel constPreModel [("x", [])] [("x", [])]).2 rfl rfl⟩

end ESPRE
